import Mathlib

/-!
Shallow embedding of the URL-shortener bot (URLSHORTENBOT).

The definitions below are translated from the repository sources:
  * `deepseek_python_20251004_8ab91b.py` — the revision with request counters
    (`BotStatus`), the URL cache (`generate_url_id` / `store_url` / `get_url`),
    the URL validator (`is_valid_url`), the per-service shortener
    (`shorten_url`), the all-services dispatcher (`send_all_shortened_urls`)
    and the health probe (`check_api_health`);
  * `bot.py` — the legacy revision whose callback payload encodes the URL by
    character replacement (`process_url` / `button_handler`).

External collaborators (the `requests` HTTP library, `hashlib`, wall-clock
time) are modelled as explicit inputs: an HTTP world function, a faithful MD5
implementation over byte lists, and timestamp parameters.
-/

set_option maxRecDepth 20000

namespace UrlBot

/-! ## Character helpers (Python string/regex semantics, ASCII fragment) -/

/-- Lower-case an ASCII character (used for `re.IGNORECASE` comparisons). -/
def charLower (c : Char) : Char :=
  if 'A' ≤ c && c ≤ 'Z' then Char.ofNat (c.toNat + 32) else c

def isDigitChar (c : Char) : Bool := '0' ≤ c && c ≤ '9'

def isAlphaCI (c : Char) : Bool := ('A' ≤ c && c ≤ 'Z') || ('a' ≤ c && c ≤ 'z')

def isAlnumCI (c : Char) : Bool := isAlphaCI c || isDigitChar c

/-- Python regex `\s` (its ASCII part: space, tab, newline, carriage return,
vertical tab, form feed, and the separator controls `\x1c`–`\x1f`, which
CPython also treats as whitespace both in `\s` and in `str.strip`). -/
def pyIsSpace (c : Char) : Bool :=
  c = ' ' || c = '\t' || c = '\n' || c = '\r' || c = Char.ofNat 11 || c = Char.ofNat 12 ||
  c = Char.ofNat 28 || c = Char.ofNat 29 || c = Char.ofNat 30 || c = Char.ofNat 31

/-! ## MD5 (`hashlib.md5`)

Bytes are `Nat` values below 256 and 32-bit words are `Nat` values reduced
modulo `2 ^ 32`. -/

def M32 : Nat := 4294967296

def add32 (a b : Nat) : Nat := (a + b) % M32

def rotl32 (x s : Nat) : Nat :=
  (((x % M32) <<< s) ||| ((x % M32) >>> (32 - s))) % M32

def not32 (x : Nat) : Nat := (x % M32) ^^^ (M32 - 1)

def md5F (b c d : Nat) : Nat := (b &&& c) ||| (not32 b &&& d)
def md5G (b c d : Nat) : Nat := (d &&& b) ||| (not32 d &&& c)
def md5H (b c d : Nat) : Nat := b ^^^ c ^^^ d
def md5I (b c d : Nat) : Nat := c ^^^ (b ||| not32 d)

def md5K : List Nat := [
  0xd76aa478, 0xe8c7b756, 0x242070db, 0xc1bdceee,
  0xf57c0faf, 0x4787c62a, 0xa8304613, 0xfd469501,
  0x698098d8, 0x8b44f7af, 0xffff5bb1, 0x895cd7be,
  0x6b901122, 0xfd987193, 0xa679438e, 0x49b40821,
  0xf61e2562, 0xc040b340, 0x265e5a51, 0xe9b6c7aa,
  0xd62f105d, 0x02441453, 0xd8a1e681, 0xe7d3fbc8,
  0x21e1cde6, 0xc33707d6, 0xf4d50d87, 0x455a14ed,
  0xa9e3e905, 0xfcefa3f8, 0x676f02d9, 0x8d2a4c8a,
  0xfffa3942, 0x8771f681, 0x6d9d6122, 0xfde5380c,
  0xa4beea44, 0x4bdecfa9, 0xf6bb4b60, 0xbebfbc70,
  0x289b7ec6, 0xeaa127fa, 0xd4ef3085, 0x04881d05,
  0xd9d4d039, 0xe6db99e5, 0x1fa27cf8, 0xc4ac5665,
  0xf4292244, 0x432aff97, 0xab9423a7, 0xfc93a039,
  0x655b59c3, 0x8f0ccc92, 0xffeff47d, 0x85845dd1,
  0x6fa87e4f, 0xfe2ce6e0, 0xa3014314, 0x4e0811a1,
  0xf7537e82, 0xbd3af235, 0x2ad7d2bb, 0xeb86d391]

def md5S : List Nat := [
  7, 12, 17, 22, 7, 12, 17, 22, 7, 12, 17, 22, 7, 12, 17, 22,
  5, 9, 14, 20, 5, 9, 14, 20, 5, 9, 14, 20, 5, 9, 14, 20,
  4, 11, 16, 23, 4, 11, 16, 23, 4, 11, 16, 23, 4, 11, 16, 23,
  6, 10, 15, 21, 6, 10, 15, 21, 6, 10, 15, 21, 6, 10, 15, 21]

def md5Sel (i b c d : Nat) : Nat :=
  if i < 16 then md5F b c d
  else if i < 32 then md5G b c d
  else if i < 48 then md5H b c d
  else md5I b c d

def md5GIdx (i : Nat) : Nat :=
  if i < 16 then i % 16
  else if i < 32 then (5 * i + 1) % 16
  else if i < 48 then (3 * i + 5) % 16
  else (7 * i) % 16

structure MDState where
  a : Nat
  b : Nat
  c : Nat
  d : Nat
deriving DecidableEq, Repr

def md5Step (ws : List Nat) (st : MDState) (i : Nat) : MDState :=
  let f := md5Sel i st.b st.c st.d
  let k := md5K.getD i 0
  let s := md5S.getD i 0
  let m := ws.getD (md5GIdx i) 0
  let nb := add32 st.b (rotl32 (add32 (add32 st.a f) (add32 k m)) s)
  ⟨st.d, nb, st.b, st.c⟩

def md5Block (st : MDState) (ws : List Nat) : MDState :=
  let r := (List.range 64).foldl (md5Step ws) st
  ⟨add32 st.a r.a, add32 st.b r.b, add32 st.c r.c, add32 st.d r.d⟩

/-- `count` little-endian bytes of `n`. -/
def leBytes (n : Nat) : Nat → List Nat
  | 0 => []
  | k + 1 => n % 256 :: leBytes (n / 256) k

/-- Group bytes into 32-bit little-endian words. -/
def toWords : List Nat → List Nat
  | b0 :: b1 :: b2 :: b3 :: rest =>
      ((b0 % 256) + 256 * (b1 % 256) + 65536 * (b2 % 256) + 16777216 * (b3 % 256))
        :: toWords rest
  | _ => []

def chunks64Aux : Nat → List Nat → List (List Nat)
  | 0, _ => []
  | _, [] => []
  | fuel + 1, l => l.take 64 :: chunks64Aux fuel (l.drop 64)

def chunks64 (l : List Nat) : List (List Nat) :=
  chunks64Aux (l.length + 1) l

/-- MD5 padding: one `0x80` byte, zeros to 56 mod 64, then the 64-bit
little-endian bit length. -/
def md5Pad (msg : List Nat) : List Nat :=
  msg ++ 0x80 :: List.replicate ((119 - msg.length % 64) % 64) 0
      ++ leBytes ((msg.length * 8) % (2 ^ 64)) 8

def md5Init : MDState := ⟨0x67452301, 0xefcdab89, 0x98badcfe, 0x10325476⟩

def md5Digest (msg : List Nat) : List Nat :=
  let st := ((chunks64 (md5Pad msg)).map toWords).foldl md5Block md5Init
  leBytes st.a 4 ++ leBytes st.b 4 ++ leBytes st.c 4 ++ leBytes st.d 4

/-- UTF-8 encoding of one character (Python `str.encode()`). -/
def utf8Enc (c : Char) : List Nat :=
  let n := c.toNat
  if n < 128 then [n]
  else if n < 2048 then [192 + n / 64, 128 + n % 64]
  else if n < 65536 then [224 + n / 4096, 128 + (n / 64) % 64, 128 + n % 64]
  else [240 + n / 262144, 128 + (n / 4096) % 64, 128 + (n / 64) % 64, 128 + n % 64]

def strBytes (s : String) : List Nat :=
  s.data.foldr (fun c acc => utf8Enc c ++ acc) []

def hexDigitChar (n : Nat) : Char :=
  if n < 10 then Char.ofNat (48 + n) else Char.ofNat (87 + n % 16)

def hexOfBytes : List Nat → List Char
  | [] => []
  | b :: bs => hexDigitChar (b / 16 % 16) :: hexDigitChar (b % 256 % 16) :: hexOfBytes bs

def md5HexChars (s : String) : List Char := hexOfBytes (md5Digest (strBytes s))

/-- `hashlib.md5(s.encode()).hexdigest()` -/
def md5Hex (s : String) : String := String.mk (md5HexChars s)

/-! ## URL cache (`generate_url_id`, `store_url`, `get_url`)

The Python `dict` is modelled as an association list; assignment replaces the
value of an existing key in place and appends a fresh key at the end, matching
insertion-ordered `dict` semantics. -/

def setKey {α : Type} : List (String × α) → String → α → List (String × α)
  | [], k, v => [(k, v)]
  | (k', v') :: rest, k, v =>
      if k' = k then (k, v) :: rest else (k', v') :: setKey rest k v

/-- `hashlib.md5(url.encode()).hexdigest()[:8]` -/
def generate_url_id (url : String) : String :=
  String.mk ((md5HexChars url).take 8)

abbrev UrlCache := List (String × String)

/-- `self.url_cache[url_id] = url; return url_id` -/
def store_url (cache : UrlCache) (url : String) : String × UrlCache :=
  let id := generate_url_id url
  (id, setKey cache id url)

/-- `self.url_cache.get(url_id, '')` -/
def get_url (cache : UrlCache) (id : String) : String :=
  (cache.lookup id).getD ""

/-! ## URL validator (`is_valid_url`)

The source validates with `re.match` against

```
^https?://(?:(?:[A-Z0-9](?:[A-Z0-9-]{0,61}[A-Z0-9])?\.)+[A-Z]{2,6}\.?|
localhost|\d{1,3}\.\d{1,3}\.\d{1,3}\.\d{1,3})(?::\d+)?(?:/?|[/?]\S+)$
```

with `re.IGNORECASE`.  The pattern is deterministic once the input is split at
the first `/` or `?` (host and port characters cannot be `/` or `?`, and the
tail alternative must begin with one of them) and the host/port split at the
first `:` (host characters cannot be `:`), so it is embedded as a
recursive-descent recogniser over those splits.  Python's `$` matches at the
end of the string or just before one final newline; `coreMatch` handles the
newline variant at the top level. -/

/-- Split a character list at the first character refuting `p`. -/
def splitWhile (p : Char → Bool) : List Char → List Char × List Char
  | [] => ([], [])
  | c :: cs =>
      if p c then
        let r := splitWhile p cs
        (c :: r.1, r.2)
      else ([], c :: cs)

/-- Split a character list into the dot-separated groups
(`"a.b"` gives `[['a'], ['b']]`; a trailing dot yields a final `[]`). -/
def splitDots : List Char → List (List Char)
  | [] => [[]]
  | '.' :: cs => [] :: splitDots cs
  | c :: cs =>
      match splitDots cs with
      | g :: gs => (c :: g) :: gs
      | [] => [[c]]

def schemeHttp : List Char := ['h', 't', 't', 'p', ':', '/', '/']
def schemeHttps : List Char := ['h', 't', 't', 'p', 's', ':', '/', '/']

/-- `https?://` (case-insensitive): strip the scheme, or fail. -/
def stripScheme (cs : List Char) : Option (List Char) :=
  match cs.map charLower with
  | 'h' :: 't' :: 't' :: 'p' :: 's' :: ':' :: '/' :: '/' :: _ => some (cs.drop 8)
  | 'h' :: 't' :: 't' :: 'p' :: ':' :: '/' :: '/' :: _ => some (cs.drop 7)
  | _ => none

/-- All but the first character of a label: interior characters are
alphanumeric or hyphen, the final character alphanumeric. -/
def labelRest : List Char → Bool
  | [] => true
  | [c] => isAlnumCI c
  | c :: rest => (isAlnumCI c || c = '-') && labelRest rest

/-- One hostname label `[A-Z0-9](?:[A-Z0-9-]{0,61}[A-Z0-9])?`: 1 to 63
characters, first and last alphanumeric, interior alphanumeric or hyphen. -/
def labelOk (l : List Char) : Bool :=
  match l with
  | [] => false
  | c :: rest => isAlnumCI c && l.length ≤ 63 && labelRest rest

/-- The top-level label `[A-Z]{2,6}`. -/
def tldOk (l : List Char) : Bool :=
  2 ≤ l.length && l.length ≤ 6 && l.all isAlphaCI

/-- `(?:[A-Z0-9](?:[A-Z0-9-]{0,61}[A-Z0-9])?\.)+[A-Z]{2,6}\.?` on the
dot-separated groups of the host: one or more labels, then a top-level label,
then optionally one trailing dot (which `splitDots` turns into a final empty
group).  Examined from the right: the last group is the top-level label, or
is empty (the trailing dot) with the top-level label before it; everything
before that is a nonempty run of labels. -/
def domainGroupsOk (gs : List (List Char)) : Bool :=
  match gs.reverse with
  | [] => false
  | t :: rest =>
      if t.isEmpty then
        match rest with
        | [] => false
        | t2 :: rest2 => tldOk t2 && !rest2.isEmpty && rest2.all labelOk
      else tldOk t && !rest.isEmpty && rest.all labelOk

/-- `\d{1,3}\.\d{1,3}\.\d{1,3}\.\d{1,3}` on the dot-separated groups. -/
def ipGroupsOk (gs : List (List Char)) : Bool :=
  gs.length = 4 &&
    gs.all fun g => 1 ≤ g.length && g.length ≤ 3 && g.all isDigitChar

def hostOk (host : List Char) : Bool :=
  domainGroupsOk (splitDots host) ||
    host.map charLower = "localhost".data ||
    ipGroupsOk (splitDots host)

/-- `(?::\d+)?`: empty, or a colon followed by at least one digit. -/
def portOk (p : List Char) : Bool :=
  match p with
  | [] => true
  | ':' :: ds => !ds.isEmpty && ds.all isDigitChar
  | _ => false

/-- `(?:/?|[/?]\S+)`: empty, a single `/`, or `/` or `?` followed by at least
one non-whitespace character running to the end. -/
def tailOk (t : List Char) : Bool :=
  match t with
  | [] => true
  | ['/'] => true
  | c :: rest => (c = '/' || c = '?') && !rest.isEmpty && rest.all fun d => !pyIsSpace d

def coreMatch (cs : List Char) : Bool :=
  match stripScheme cs with
  | none => false
  | some rest =>
      let s1 := splitWhile (fun c => c ≠ '/' && c ≠ '?') rest
      let s2 := splitWhile (fun c => c ≠ ':') s1.1
      hostOk s2.1 && portOk s2.2 && tailOk s1.2

/-- `re.match(pattern, url, re.IGNORECASE) is not None`. -/
def is_valid_url (url : String) : Bool :=
  coreMatch url.data ||
    (match url.data.getLast? with
     | some c => c = '\n' && coreMatch url.data.dropLast
     | none => false)

/-! ## Spec-side URL grammar (for the validator claim)

Modelled from the spec: "must start with `http://` or `https://`; remainder
must parse as `host[:port][/path][?query]` where host is either a dotted
hostname with a valid top-level label, `localhost`, or a dotted-quad IPv4
address".  The label and top-level-label rules are the DNS rules the source's
regex comments describe (letters/digits/hyphens, at most 63 characters, no
edge hyphen; a 2-6 letter top-level label); the IPv4 octets are 1-3 digit
groups with value at most 255. -/

inductive SpecHost where
  | domain (labels : List (List Char)) (tld : List Char) (trailingDot : Bool)
  | localhost
  | ipv4 (o1 o2 o3 o4 : List Char)
deriving DecidableEq, Repr

structure SpecUrl where
  secure : Bool
  host : SpecHost
  port : Option (List Char)
  path : Option (List Char)
  query : Option (List Char)
deriving DecidableEq, Repr

def specLabelOk (l : List Char) : Bool := labelOk l

def specOctetOk (g : List Char) : Bool :=
  1 ≤ g.length && g.length ≤ 3 && g.all isDigitChar &&
    (g.foldl (fun n c => 10 * n + (c.toNat - 48)) 0) ≤ 255

def SpecHost.ok : SpecHost → Bool
  | .domain labels tld _ => !labels.isEmpty && labels.all specLabelOk && tldOk tld
  | .localhost => true
  | .ipv4 o1 o2 o3 o4 => specOctetOk o1 && specOctetOk o2 && specOctetOk o3 && specOctetOk o4

def specWf (u : SpecUrl) : Bool :=
  u.host.ok &&
    (match u.port with
     | none => true
     | some ds => !ds.isEmpty && ds.all isDigitChar) &&
    (match u.path with
     | none => true
     | some p => p.all fun c => !pyIsSpace c) &&
    (match u.query with
     | none => true
     | some q => q.all fun c => !pyIsSpace c) &&
    -- a query with no path must be nonempty: `host?` alone has no tail match
    (match u.path, u.query with
     | none, some q => !q.isEmpty
     | _, _ => true)

def SpecHost.render : SpecHost → List Char
  | .domain labels tld trailingDot =>
      labels.foldr (fun l acc => l ++ '.' :: acc) (tld ++ if trailingDot then ['.'] else [])
  | .localhost => ['l', 'o', 'c', 'a', 'l', 'h', 'o', 's', 't']
  | .ipv4 o1 o2 o3 o4 => o1 ++ '.' :: o2 ++ '.' :: o3 ++ '.' :: o4

def portRender : Option (List Char) → List Char
  | none => []
  | some ds => ':' :: ds

def pathRender : Option (List Char) → List Char
  | none => []
  | some p => '/' :: p

def queryRender : Option (List Char) → List Char
  | none => []
  | some q => '?' :: q

def SpecUrl.renderChars (u : SpecUrl) : List Char :=
  (if u.secure then schemeHttps else schemeHttp) ++
    u.host.render ++ portRender u.port ++ pathRender u.path ++ queryRender u.query

def SpecUrl.render (u : SpecUrl) : String := String.mk u.renderChars

/-- What it means, following the spec's words, for a character list to carry
an http(s) scheme: it starts with `http://` or `https://` up to letter
case. -/
def specHasSchemeL (cs : List Char) : Bool :=
  match cs.map charLower with
  | 'h' :: 't' :: 't' :: 'p' :: ':' :: '/' :: '/' :: _ => true
  | 'h' :: 't' :: 't' :: 'p' :: 's' :: ':' :: '/' :: '/' :: _ => true
  | _ => false

def specHasScheme (s : String) : Bool := specHasSchemeL s.data

/-! ## HTTP collaborator model

`requests` is modelled as a function from requests to outcomes.  A response
carries its status code, its text body and, separately, the result of
`response.json()` (`none` when the body does not parse, which in Python raises
`ValueError`).  JSON arrays, booleans and null — which the handlers treat like
the other non-object values, raising on attribute or key access — are not
separately modelled. -/

inductive Json where
  | str : String → Json
  | num : Int → Json
  | obj : List (String × Json) → Json

inductive Method where
  | get
  | post
deriving DecidableEq, Repr

structure Req where
  method : Method
  api : String
  payload : String
deriving DecidableEq, Repr

inductive HttpOutcome where
  | timeout
  | connError
  | ok (status : Nat) (text : String) (json : Option Json)

def World := Req → HttpOutcome

/-- Python truthiness of a JSON value. -/
def Json.truthy : Json → Bool
  | .str s => s ≠ ""
  | .num n => n ≠ 0
  | .obj kvs => !kvs.isEmpty

/-- Python `x or y` on two optional JSON values. -/
def pyOr (a b : Option Json) : Option Json :=
  match a with
  | some v => if v.truthy then some v else b
  | none => b

/-- `value == 'success'` for an optional JSON value. -/
def isSuccessVal : Option Json → Bool
  | some (.str s) => s = "success"
  | _ => false

/-- `value == 7` for an optional JSON value. -/
def isStatus7 : Option Json → Bool
  | some (.num n) => n = 7
  | _ => false

/-- Python `str.strip()` (ASCII whitespace). -/
def pyStrip (s : String) : String :=
  String.mk (((s.data.dropWhile pyIsSpace).reverse.dropWhile pyIsSpace).reverse)

/-- Python `s.startswith('http')`. -/
def startsWithHttp (s : String) : Bool :=
  match s.data with
  | 'h' :: 't' :: 't' :: 'p' :: _ => true
  | _ => false

def hasHttpSub : List Char → Bool
  | 'h' :: 't' :: 't' :: 'p' :: _ => true
  | _ :: rest => hasHttpSub rest
  | [] => false

/-- Python `'http' in s`. -/
def containsHttp (s : String) : Bool := hasHttpSub s.data

/-- One attempted match of `https?://[^\s]+` at the head of the list
(case-sensitive, greedy run of non-whitespace): the match and the rest. -/
def urlMatchAt (cs : List Char) : Option (List Char × List Char) :=
  match cs with
  | 'h' :: 't' :: 't' :: 'p' :: rest =>
      (match rest with
       | 's' :: ':' :: '/' :: '/' :: more =>
           let r := splitWhile (fun c => !pyIsSpace c) more
           if r.1.isEmpty then none
           else some ('h' :: 't' :: 't' :: 'p' :: 's' :: ':' :: '/' :: '/' :: r.1, r.2)
       | ':' :: '/' :: '/' :: more =>
           let r := splitWhile (fun c => !pyIsSpace c) more
           if r.1.isEmpty then none
           else some ('h' :: 't' :: 't' :: 'p' :: ':' :: '/' :: '/' :: r.1, r.2)
       | _ => none)
  | _ => none

def findUrlsAux : Nat → List Char → List String
  | 0, _ => []
  | _, [] => []
  | fuel + 1, c :: cs =>
      match urlMatchAt (c :: cs) with
      | some (m, rest) => String.mk m :: findUrlsAux fuel rest
      | none => findUrlsAux fuel cs

/-- `re.findall(r'https?://[^\s]+', s)`. -/
def findUrls (s : String) : List String := findUrlsAux s.data.length s.data

/-! ## Configuration (`Config`) -/

structure Config where
  bitlyToken : String
  cuttlyApi : String
  gplinksApi : String
deriving DecidableEq, Repr

structure ServiceInfo where
  name : String
  apiUrl : String
  requiresKey : Bool
deriving DecidableEq, Repr

/-- `Config.SUPPORTED_SERVICES`, an insertion-ordered dict in the source. -/
def SUPPORTED_SERVICES : List (String × ServiceInfo) := [
  ("bitly", ⟨"Bitly", "https://api-ssl.bitly.com/v4/shorten", true⟩),
  ("tinyurl", ⟨"TinyURL", "http://tinyurl.com/api-create.php", false⟩),
  ("cuttly", ⟨"Cuttly", "https://cutt.ly/api/api.php", true⟩),
  ("gplinks", ⟨"GPLinks", "https://gplinks.in/api", true⟩)]

def serviceKeys : List String := SUPPORTED_SERVICES.map Prod.fst

def serviceApi (s : String) : String :=
  ((SUPPORTED_SERVICES.lookup s).map ServiceInfo.apiUrl).getD ""

/-! ## `shorten_url`

The result of one call: the returned value (`none` is Python `None`), the
deltas applied to the three `BotStatus` counters, and the HTTP requests issued,
in order.  Exceptions raised inside the `try` block are translated into the
paths the corresponding `except` handlers produce (increment the failure
counter, return `None`). -/

structure BranchRes where
  result : Option Json
  dSucc : Nat
  dFail : Nat
  reqs : List Req

structure CallResult where
  result : Option Json
  dTotal : Nat
  dSucc : Nat
  dFail : Nat
  reqs : List Req

def bitlyReq (url : String) : Req := ⟨.post, "https://api-ssl.bitly.com/v4/shorten", url⟩

def bitlyShorten (cfg : Config) (w : World) (url : String) : BranchRes :=
  if cfg.bitlyToken = "" then ⟨none, 0, 1, []⟩
  else
    match w (bitlyReq url) with
    | .timeout => ⟨none, 0, 1, [bitlyReq url]⟩
    | .connError => ⟨none, 0, 1, [bitlyReq url]⟩
    | .ok status _ json =>
        if status = 200 then
          -- `increment_successful_shortens()` runs before `response.json()['link']`
          -- is evaluated; a body that is not a JSON object carrying "link" then
          -- raises, landing in the catch-all handler which increments failures too
          match json with
          | some (.obj kvs) =>
              match kvs.lookup "link" with
              | some v => ⟨some v, 1, 0, [bitlyReq url]⟩
              | none => ⟨none, 1, 1, [bitlyReq url]⟩
          | _ => ⟨none, 1, 1, [bitlyReq url]⟩
        else ⟨none, 0, 1, [bitlyReq url]⟩

def tinyurlReq (url : String) : Req := ⟨.get, "http://tinyurl.com/api-create.php", url⟩

def tinyurlShorten (w : World) (url : String) : BranchRes :=
  match w (tinyurlReq url) with
  | .timeout => ⟨none, 0, 1, [tinyurlReq url]⟩
  | .connError => ⟨none, 0, 1, [tinyurlReq url]⟩
  | .ok status text _ =>
      if status = 200 then ⟨some (.str (pyStrip text)), 1, 0, [tinyurlReq url]⟩
      else ⟨none, 0, 1, [tinyurlReq url]⟩

def cuttlyReq (url : String) : Req := ⟨.get, "https://cutt.ly/api/api.php", url⟩

def cuttlyShorten (cfg : Config) (w : World) (url : String) : BranchRes :=
  if cfg.cuttlyApi = "" then ⟨none, 0, 1, []⟩
  else
    match w (cuttlyReq url) with
    | .timeout => ⟨none, 0, 1, [cuttlyReq url]⟩
    | .connError => ⟨none, 0, 1, [cuttlyReq url]⟩
    | .ok status _ json =>
        if status = 200 then
          match json with
          | none => ⟨none, 0, 1, [cuttlyReq url]⟩  -- response.json() raises ValueError
          | some (.obj kvs) =>
              match (kvs.lookup "url").getD (.obj []) with
              | .obj ukvs =>
                  if isStatus7 (ukvs.lookup "status") then
                    match ukvs.lookup "shortLink" with
                    | some v => ⟨some v, 1, 0, [cuttlyReq url]⟩
                    | none => ⟨none, 1, 1, [cuttlyReq url]⟩  -- KeyError after the success increment
                  else ⟨none, 0, 1, [cuttlyReq url]⟩
              | _ => ⟨none, 0, 1, [cuttlyReq url]⟩   -- .get('status') on a non-dict raises
          | some _ => ⟨none, 0, 1, [cuttlyReq url]⟩  -- .get('url', ...) on a non-dict raises
        else ⟨none, 0, 1, [cuttlyReq url]⟩

def gplinksApiUrl : String := "https://gplinks.in/api"

def gpGetReq (url : String) : Req := ⟨.get, gplinksApiUrl, url⟩
def gpPostReq (url : String) : Req := ⟨.post, gplinksApiUrl, url⟩

inductive GpStep where
  | ret (v : Option Json)  -- early return, preceded by the success increment
  | raise                  -- exception not caught by the inner `except ValueError`
  | fallthrough            -- continue to the POST attempt / final failure

/-- Handling of one gplinks HTTP response (the `status_code == 200` block).
`withElif` marks the GET block, which has the extra
`elif 'shortenedUrl' in json_data` arm; the POST block lacks it. -/
def gplinksParse (withElif : Bool) (status : Nat) (text : String)
    (json : Option Json) : GpStep :=
  if status = 200 then
    if startsWithHttp (pyStrip text) then .ret (some (.str (pyStrip text)))
    else
      match json with
      | some (.obj kvs) =>
          if isSuccessVal (kvs.lookup "status") then
            .ret (pyOr (kvs.lookup "shortenedUrl") (kvs.lookup "shorturl"))
          else if withElif && (kvs.lookup "shortenedUrl").isSome then
            .ret (kvs.lookup "shortenedUrl")
          else .fallthrough
      | some _ => .raise     -- json_data.get on a non-dict raises AttributeError
      | none =>
          -- except ValueError: scan the text for a URL with re.findall
          if containsHttp (pyStrip text) then
            match findUrls (pyStrip text) with
            | u :: _ => .ret (some (.str u))
            | [] => .fallthrough
          else .fallthrough
  else .fallthrough

def gplinksShorten (cfg : Config) (w : World) (url : String) : BranchRes :=
  if cfg.gplinksApi = "" then ⟨none, 0, 1, []⟩
  else
    match w (gpGetReq url) with
    | .timeout => ⟨none, 0, 1, [gpGetReq url]⟩
    | .connError => ⟨none, 0, 1, [gpGetReq url]⟩
    | .ok st t j =>
        match gplinksParse true st t j with
        | .ret v => ⟨v, 1, 0, [gpGetReq url]⟩
        | .raise => ⟨none, 0, 1, [gpGetReq url]⟩
        | .fallthrough =>
            match w (gpPostReq url) with
            | .timeout => ⟨none, 0, 1, [gpGetReq url, gpPostReq url]⟩
            | .connError => ⟨none, 0, 1, [gpGetReq url, gpPostReq url]⟩
            | .ok st2 t2 j2 =>
                match gplinksParse false st2 t2 j2 with
                | .ret v => ⟨v, 1, 0, [gpGetReq url, gpPostReq url]⟩
                | .raise => ⟨none, 0, 1, [gpGetReq url, gpPostReq url]⟩
                | .fallthrough => ⟨none, 0, 1, [gpGetReq url, gpPostReq url]⟩

/-- The service dispatch of `shorten_url`: validate first, then the
`if/elif` chain on the service name (an unknown service falls through to the
final failure return). -/
def shortenBranch (cfg : Config) (w : World) (url service : String) : BranchRes :=
  if !is_valid_url url then ⟨none, 0, 1, []⟩
  else if service = "bitly" then bitlyShorten cfg w url
  else if service = "tinyurl" then tinyurlShorten w url
  else if service = "cuttly" then cuttlyShorten cfg w url
  else if service = "gplinks" then gplinksShorten cfg w url
  else ⟨none, 0, 1, []⟩

/-- `URLShortenerBot.shorten_url` from `deepseek_python_20251004_8ab91b.py`;
`increment_requests` runs once on entry, before validation. -/
def shorten_url (cfg : Config) (w : World) (url service : String) : CallResult :=
  let br := shortenBranch cfg w url service
  ⟨br.result, 1, br.dSucc, br.dFail, br.reqs⟩

/-- `send_all_shortened_urls`: one `shorten_url` call per entry of
`SUPPORTED_SERVICES`, in declaration order. -/
def send_all_shortened_urls (cfg : Config) (w : World) (url : String) :
    List (String × CallResult) :=
  SUPPORTED_SERVICES.map fun s => (s.1, shorten_url cfg w url s.1)

/-! ## `BotStatus` counters -/

structure Counters where
  total : Nat
  successful : Nat
  failed : Nat
deriving DecidableEq, Repr

def applyCall (c : Counters) (r : CallResult) : Counters :=
  ⟨c.total + r.dTotal, c.successful + r.dSucc, c.failed + r.dFail⟩

/-! ## Health probes (`check_api_health`, `BotStatus.update_api_status`)

Wall-clock readings are passed in (`now` for `datetime.now()`, `elapsed` for
the measured response time in milliseconds); the human-readable `message`
strings of the returned dict are not modelled. -/

structure HealthRecord where
  status : String
  lastChecked : Nat
  responseTime : Option Nat
deriving DecidableEq, Repr

abbrev StatusMap := List (String × HealthRecord)

/-- `BotStatus.update_api_status`: dict assignment, an unconditional overwrite. -/
def update_api_status (m : StatusMap) (service status : String) (now : Nat)
    (rt : Option Nat) : StatusMap :=
  setKey m service ⟨status, now, rt⟩

structure HealthResult where
  status : String
  responseTime : Option Nat
deriving DecidableEq, Repr

def bitlyHealthReq : Req := ⟨.get, "https://api-ssl.bitly.com/v4/user", ""⟩
def tinyurlHealthReq : Req := ⟨.get, "http://tinyurl.com/api-create.php", "https://www.google.com"⟩
def cuttlyHealthReq : Req := ⟨.get, "https://cutt.ly/api/api.php", "https://www.google.com"⟩
def gplinksHealthReq : Req := ⟨.get, "https://gplinks.in/api", "https://www.google.com"⟩

/-- The shared request/record/return pattern of each configured service's
probe, including the `except` handlers (timeout and catch-all), all of which
do record the probe. -/
def healthProbeStep (w : World) (m : StatusMap) (service : String)
    (now elapsed : Nat) (req : Req) : HealthResult × StatusMap :=
  match w req with
  | .timeout => (⟨"timeout", none⟩, update_api_status m service "timeout" now none)
  | .connError => (⟨"error", none⟩, update_api_status m service "error" now none)
  | .ok st _ _ =>
      let status := if st = 200 then "connected" else "error"
      (⟨status, some elapsed⟩, update_api_status m service status now (some elapsed))

/-- `URLShortenerBot.check_api_health`.  Note the early `return` on a missing
credential, which happens before any call to `update_api_status`. -/
def check_api_health (cfg : Config) (w : World) (m : StatusMap)
    (now elapsed : Nat) (service : String) : HealthResult × StatusMap :=
  if service = "bitly" then
    if cfg.bitlyToken = "" then (⟨"error", none⟩, m)
    else healthProbeStep w m service now elapsed bitlyHealthReq
  else if service = "tinyurl" then
    healthProbeStep w m service now elapsed tinyurlHealthReq
  else if service = "cuttly" then
    if cfg.cuttlyApi = "" then (⟨"error", none⟩, m)
    else healthProbeStep w m service now elapsed cuttlyHealthReq
  else if service = "gplinks" then
    if cfg.gplinksApi = "" then (⟨"error", none⟩, m)
    else healthProbeStep w m service now elapsed gplinksHealthReq
  else
    -- unknown service: the local `status` is unbound at the update call, and
    -- the NameError lands in the catch-all handler, which records an error
    (⟨"error", none⟩, update_api_status m service "error" now none)

/-! ## Legacy callback encoding (`bot.py`) -/

/-- Python `str.replace` with a one-character pattern and one-character
replacement equals a per-character map. -/
def pyReplaceChar (s : String) (a b : Char) : String :=
  String.mk (s.data.map fun c => if c = a then b else c)

/-- `url.replace('/', '_').replace(':', '|')` from `process_url` in `bot.py`. -/
def encodeCallback (u : String) : String :=
  pyReplaceChar (pyReplaceChar u '/' '_') ':' '|'

/-- `encoded_url.replace('_', '/').replace('|', ':')` from `button_handler`
in `bot.py`. -/
def decodeCallback (s : String) : String :=
  pyReplaceChar (pyReplaceChar s '_' '/') '|' ':'

/-! ## Concrete fixtures used by counterexamples and witnesses -/

def cfgAllKeys : Config := ⟨"bitly-key", "cuttly-key", "gplinks-key"⟩

def urlEx : String := "https://example.com"

def worldBadJson : World := fun _ => .ok 200 "notjson" none

def world403 : World := fun _ => .ok 403 "quota exceeded or invalid api key" none

def world500 : World := fun _ => .ok 500 "internal server error" none

def worldGpSuccessNoField : World := fun r =>
  if r.method = .get then
    .ok 200 "\x7b\"status\": \"success\"\x7d" (some (.obj [("status", .str "success")]))
  else
    .ok 200 "https://gplinks.in/abc123" none

def mapBefore : StatusMap := [("bitly", ⟨"connected", 0, some 5⟩)]

/-- A world in which only the gplinks endpoint misbehaves (times out); all
other endpoints answer like `world500`. -/
def worldGpDown : World := fun r =>
  if r.api = "https://gplinks.in/api" then .timeout
  else .ok 500 "internal server error" none

/-- Lower-case hexadecimal digit. -/
def isHexChar (c : Char) : Bool :=
  ('0' ≤ c && c ≤ '9') || ('a' ≤ c && c ≤ 'f')

/-- The cache produced by a sequence of `store_url` calls on a fresh bot. -/
def cacheOf (urls : List String) : UrlCache :=
  urls.foldl (fun c u => (store_url c u).2) []

/-- Counter-delta shape of one branch: each of the success/failure counters
moves by at most one, and at least one of them moves. -/
abbrev okDeltas (b : BranchRes) : Prop :=
  b.dSucc ≤ 1 ∧ b.dFail ≤ 1 ∧ 1 ≤ b.dSucc + b.dFail

def specUrlEx : SpecUrl :=
  ⟨true, .domain [['e', 'x', 'a', 'm', 'p', 'l', 'e']] ['c', 'o', 'm'] false,
    none, some ['a'], some ['b', '=', '1']⟩

end UrlBot

namespace UrlBot

/-! ### Association-list (Python dict) lemmas -/

theorem lookup_setKey_self {α : Type} (m : List (String × α)) (k : String) (v : α) :
    (setKey m k v).lookup k = some v := by
  induction m with
  | nil => simp [setKey, List.lookup]
  | cons p t ih =>
      obtain ⟨k', v'⟩ := p
      by_cases hk : k' = k
      · subst hk; simp [setKey, List.lookup]
      · have hb : (k == k') = false := beq_eq_false_iff_ne.mpr (Ne.symm hk)
        simp [setKey, hk, List.lookup, hb, ih]

theorem lookup_setKey_ne {α : Type} (m : List (String × α)) (k k' : String) (v : α)
    (h : k' ≠ k) : (setKey m k v).lookup k' = m.lookup k' := by
  have hb : (k' == k) = false := beq_eq_false_iff_ne.mpr h
  induction m with
  | nil => simp [setKey, List.lookup, hb]
  | cons p t ih =>
      obtain ⟨k'', v''⟩ := p
      by_cases hk : k'' = k
      · subst hk; simp [setKey, List.lookup, hb]
      · simp [setKey, hk, List.lookup, ih]

/-! ### MD5 digest shape lemmas -/

theorem leBytes_length : ∀ (k n : Nat), (leBytes n k).length = k := by
  intro k
  induction k with
  | zero => intro n; rfl
  | succ k ih => intro n; simp [leBytes, ih]

theorem md5Digest_length (msg : List Nat) : (md5Digest msg).length = 16 := by
  simp [md5Digest, leBytes_length]

theorem hexOfBytes_length (bs : List Nat) : (hexOfBytes bs).length = 2 * bs.length := by
  induction bs with
  | nil => rfl
  | cons b t ih => simp [hexOfBytes, ih]; omega

theorem md5HexChars_length (s : String) : (md5HexChars s).length = 32 := by
  simp [md5HexChars, hexOfBytes_length, md5Digest_length]

theorem hexDigitChar_hex : ∀ n, n < 16 → isHexChar (hexDigitChar n) = true := by decide

theorem hexOfBytes_hex (bs : List Nat) : ∀ c ∈ hexOfBytes bs, isHexChar c = true := by
  induction bs with
  | nil => simp [hexOfBytes]
  | cons b t ih =>
      intro c hc
      simp only [hexOfBytes, List.mem_cons] at hc
      rcases hc with h | h | h
      · subst h; exact hexDigitChar_hex _ (Nat.mod_lt _ (by omega))
      · subst h; exact hexDigitChar_hex _ (Nat.mod_lt _ (by omega))
      · exact ih c h

/-- C3: `store_url` is idempotent and deterministic — storing the same URL
twice returns the same token (the 8-character truncated MD5 of the URL, all
lower-case hex), and `get_url` on that token returns the original URL after
either store. -/
theorem C3_cache_store_idempotent (cache : UrlCache) (url : String) :
    (store_url cache url).1 = (store_url (store_url cache url).2 url).1 ∧
    (store_url cache url).1 = generate_url_id url ∧
    get_url (store_url cache url).2 (store_url cache url).1 = url ∧
    get_url (store_url (store_url cache url).2 url).2 (store_url cache url).1 = url ∧
    (store_url cache url).1.length = 8 ∧
    (store_url cache url).1.data.all isHexChar = true := by
  refine ⟨rfl, rfl, ?_, ?_, ?_, ?_⟩
  · simp [get_url, store_url, lookup_setKey_self]
  · simp [get_url, store_url, lookup_setKey_self]
  · show ((md5HexChars url).take 8).length = 8
    simp [List.length_take, md5HexChars_length]
  · show ((md5HexChars url).take 8).all isHexChar = true
    rw [List.all_eq_true]
    intro c hc
    exact hexOfBytes_hex _ c (List.take_subset _ _ hc)

/-! ### C8: resolving an unknown token -/

theorem get_cacheOf_aux (urls : List String) : ∀ (c : UrlCache) (t : String),
    (t ∉ urls.map generate_url_id →
      get_url (urls.foldl (fun c u => (store_url c u).2) c) t = get_url c t) ∧
    (get_url (urls.foldl (fun c u => (store_url c u).2) c) t = get_url c t ∨
      get_url (urls.foldl (fun c u => (store_url c u).2) c) t ∈ urls) := by
  induction urls with
  | nil => intro c t; exact ⟨fun _ => rfl, Or.inl rfl⟩
  | cons u us ih =>
      intro c t
      constructor
      · intro hni
        simp only [List.map_cons, List.mem_cons, not_or] at hni
        have h1 : get_url (setKey c (generate_url_id u) u) t = get_url c t := by
          simp [get_url, lookup_setKey_ne _ _ _ _ hni.1]
        calc get_url (us.foldl (fun c u => (store_url c u).2) (store_url c u).2) t
            = get_url (store_url c u).2 t := (ih _ t).1 hni.2
          _ = get_url c t := h1
      · rcases (ih (store_url c u).2 t).2 with h | h
        · by_cases ht : t = generate_url_id u
          · subst ht
            rw [List.foldl_cons, h]
            right
            simp [get_url, store_url, lookup_setKey_self]
          · rw [List.foldl_cons, h]
            left
            simp [get_url, store_url, lookup_setKey_ne _ _ _ _ ht]
        · exact Or.inr (List.mem_cons_of_mem _ h)

/-- C8: `get_url` on a token never issued by any `store_url` call returns the
empty-string sentinel, and it never returns a URL that was not stored. -/
theorem C8_unknown_token_not_found (urls : List String) (t : String) :
    (t ∉ urls.map generate_url_id → get_url (cacheOf urls) t = "") ∧
    (get_url (cacheOf urls) t = "" ∨ get_url (cacheOf urls) t ∈ urls) := by
  have h := get_cacheOf_aux urls [] t
  have hnil : get_url ([] : UrlCache) t = "" := rfl
  exact ⟨fun hni => (h.1 hni).trans hnil, by rcases h.2 with h' | h' <;> simp [cacheOf, h', hnil]⟩

theorem C8_witness :
    ("zzzzzzzz" ∉ ["https://a.com"].map generate_url_id) ∧
    get_url (cacheOf ["https://a.com"]) "zzzzzzzz" = "" :=
  ⟨by decide, (C8_unknown_token_not_found ["https://a.com"] "zzzzzzzz").1 (by decide)⟩

/-! ### C2: invalid URLs are rejected before any HTTP request -/

/-- C2: when validation fails, every `shorten_url` call — whatever the
service, and in particular every call of an all-services dispatch — returns
`None` immediately, counts one request and one failure, and issues no HTTP
request. -/
theorem C2_invalid_url_no_request (cfg : Config) (w : World) (url service : String)
    (h : is_valid_url url = false) :
    shorten_url cfg w url service = ⟨none, 1, 0, 1, []⟩ ∧
    ∀ p ∈ send_all_shortened_urls cfg w url, p.2 = ⟨none, 1, 0, 1, []⟩ := by
  have hs : ∀ s : String, shorten_url cfg w url s = ⟨none, 1, 0, 1, []⟩ := by
    intro s
    simp [shorten_url, shortenBranch, h]
  refine ⟨hs service, ?_⟩
  intro p hp
  simp only [send_all_shortened_urls, SUPPORTED_SERVICES, List.map_cons, List.map_nil,
    List.mem_cons, List.not_mem_nil, or_false] at hp
  rcases hp with h1 | h1 | h1 | h1 <;> (subst h1; exact hs _)

theorem C2_witness :
    is_valid_url "not a url" = false ∧
    shorten_url cfgAllKeys worldBadJson "not a url" "bitly" = ⟨none, 1, 0, 1, []⟩ :=
  ⟨by decide,
   (C2_invalid_url_no_request cfgAllKeys worldBadJson "not a url" "bitly" (by decide)).1⟩

/-! ### C10: the legacy callback-payload round trip -/

theorem replace_roundtrip (l : List Char) (hu : '_' ∉ l) (hp : '|' ∉ l) :
    ((((l.map fun c => if c = '/' then '_' else c).map fun c =>
        if c = ':' then '|' else c).map fun c =>
        if c = '_' then '/' else c).map fun c => if c = '|' then ':' else c) = l := by
  induction l with
  | nil => rfl
  | cons c cs ih =>
      simp only [List.mem_cons, not_or] at hu hp
      simp only [List.map_cons, ih hu.2 hp.2, List.cons.injEq, and_true]
      by_cases h1 : c = '/'
      · subst h1; decide
      · by_cases h2 : c = ':'
        · subst h2; decide
        · simp [h1, h2, Ne.symm hu.1, Ne.symm hp.1]

/-- C10: the legacy `bot.py` callback encoding (`/`→`_`, `:`→`|`) followed by
its decoding (`_`→`/`, `|`→`:`) restores any URL containing neither `_` nor
`|`, and there is a valid URL with an underscore on which the round trip
returns a different string. -/
theorem C10_callback_roundtrip :
    (∀ u : String, '_' ∉ u.data → '|' ∉ u.data → decodeCallback (encodeCallback u) = u) ∧
    is_valid_url "https://example.com/a_b" = true ∧
    decodeCallback (encodeCallback "https://example.com/a_b") ≠ "https://example.com/a_b" := by
  refine ⟨?_, by decide, by decide⟩
  intro u hu hp
  have h : decodeCallback (encodeCallback u) =
      String.mk ((((u.data.map fun c => if c = '/' then '_' else c).map fun c =>
        if c = ':' then '|' else c).map fun c =>
        if c = '_' then '/' else c).map fun c => if c = '|' then ':' else c) := rfl
  rw [h, replace_roundtrip u.data hu hp]

theorem C10_witness :
    ('_' ∉ "https://example.com/a?b=1".data) ∧ ('|' ∉ "https://example.com/a?b=1".data) ∧
    decodeCallback (encodeCallback "https://example.com/a?b=1") = "https://example.com/a?b=1" :=
  ⟨by decide, by decide,
   C10_callback_roundtrip.1 "https://example.com/a?b=1" (by decide) (by decide)⟩

/-! ### C4: HTTP 403/401 is not a distinguished outcome -/

/-- C4 counterexample: with the gplinks key configured, a provider answering
HTTP 403 with a quota message yields exactly the same call result as one
answering HTTP 500 — the generic `None` failure.  No distinguished
quota/authorization outcome exists in the code. -/
theorem C4_counterexample :
    shorten_url cfgAllKeys world403 urlEx "gplinks" =
      shorten_url cfgAllKeys world500 urlEx "gplinks" ∧
    (shorten_url cfgAllKeys world403 urlEx "gplinks").result = none ∧
    (shorten_url cfgAllKeys world403 urlEx "gplinks").dFail = 1 :=
  ⟨rfl, rfl, rfl⟩

/-- C4 amended: whatever two non-200 statuses the gplinks GET and POST
attempts return, `shorten_url` produces one and the same generic failure:
result `None`, one failure count, both requests issued.  Callers therefore
cannot render a distinct quota/authorization message. -/
theorem C4_amended_quota_not_distinguished (cfg : Config) (w : World) (url : String)
    (hk : cfg.gplinksApi ≠ "") (hv : is_valid_url url = true)
    (st1 st2 : Nat) (t1 t2 : String) (j1 j2 : Option Json)
    (h1 : w (gpGetReq url) = .ok st1 t1 j1) (hs1 : st1 ≠ 200)
    (h2 : w (gpPostReq url) = .ok st2 t2 j2) (hs2 : st2 ≠ 200) :
    shorten_url cfg w url "gplinks" = ⟨none, 1, 0, 1, [gpGetReq url, gpPostReq url]⟩ := by
  simp [shorten_url, shortenBranch, hv, gplinksShorten, hk, h1, h2, gplinksParse, hs1, hs2]

theorem C4_witness :
    cfgAllKeys.gplinksApi ≠ "" ∧
    shorten_url cfgAllKeys world403 urlEx "gplinks" =
      ⟨none, 1, 0, 1, [gpGetReq urlEx, gpPostReq urlEx]⟩ :=
  ⟨by decide,
   C4_amended_quota_not_distinguished cfgAllKeys world403 urlEx (by decide) (by decide)
     403 403 "quota exceeded or invalid api key" "quota exceeded or invalid api key"
     none none rfl (by decide) rfl (by decide)⟩

/-! ### C5: counter increments -/

/-- C5 counterexample: a bitly 200 response whose body is not JSON makes one
`shorten_url` call increment the total, the successful *and* the failed
counter, so "exactly one of successful/failed" and
`total = successful + failed` both fail. -/
theorem C5_counterexample :
    (shorten_url cfgAllKeys worldBadJson urlEx "bitly").dTotal = 1 ∧
    (shorten_url cfgAllKeys worldBadJson urlEx "bitly").dSucc = 1 ∧
    (shorten_url cfgAllKeys worldBadJson urlEx "bitly").dFail = 1 ∧
    (applyCall ⟨0, 0, 0⟩ (shorten_url cfgAllKeys worldBadJson urlEx "bitly")).total ≠
      (applyCall ⟨0, 0, 0⟩ (shorten_url cfgAllKeys worldBadJson urlEx "bitly")).successful +
        (applyCall ⟨0, 0, 0⟩ (shorten_url cfgAllKeys worldBadJson urlEx "bitly")).failed :=
  ⟨rfl, rfl, rfl, by decide⟩

theorem bitlyShorten_ok (cfg : Config) (w : World) (url : String) :
    okDeltas (bitlyShorten cfg w url) := by
  unfold bitlyShorten
  repeat' split
  all_goals exact ⟨by norm_num, by norm_num, by norm_num⟩

theorem tinyurlShorten_ok (w : World) (url : String) :
    okDeltas (tinyurlShorten w url) := by
  unfold tinyurlShorten
  repeat' split
  all_goals exact ⟨by norm_num, by norm_num, by norm_num⟩

theorem cuttlyShorten_ok (cfg : Config) (w : World) (url : String) :
    okDeltas (cuttlyShorten cfg w url) := by
  unfold cuttlyShorten
  repeat' split
  all_goals exact ⟨by norm_num, by norm_num, by norm_num⟩

theorem gplinksShorten_ok (cfg : Config) (w : World) (url : String) :
    okDeltas (gplinksShorten cfg w url) := by
  unfold gplinksShorten
  repeat' split
  all_goals exact ⟨by norm_num, by norm_num, by norm_num⟩

theorem shortenBranch_ok (cfg : Config) (w : World) (url s : String) :
    okDeltas (shortenBranch cfg w url s) := by
  unfold shortenBranch
  by_cases hv : is_valid_url url
  · simp only [hv, Bool.not_true, Bool.false_eq_true, if_false]
    by_cases h1 : s = "bitly"
    · simp only [h1, if_true]; exact bitlyShorten_ok cfg w url
    · simp only [h1, if_false]
      by_cases h2 : s = "tinyurl"
      · simp only [h2, if_true]; exact tinyurlShorten_ok w url
      · simp only [h2, if_false]
        by_cases h3 : s = "cuttly"
        · simp only [h3, if_true]; exact cuttlyShorten_ok cfg w url
        · simp only [h3, if_false]
          by_cases h4 : s = "gplinks"
          · simp only [h4, if_true]; exact gplinksShorten_ok cfg w url
          · simp only [h4, if_false]
            exact ⟨by norm_num, by norm_num, by norm_num⟩
  · simp only [Bool.not_eq_true] at hv
    simp only [hv, Bool.not_false, if_true]
    exact ⟨by norm_num, by norm_num, by norm_num⟩

/-- C5 amended: every `shorten_url` call increments the total counter by
exactly one, each of the successful and failed counters by at most one, and
at least one of them; no counter ever decreases.  (The original "exactly one
of successful or failed" fails: a 200 response whose body breaks the parse
after the success increment — see the counterexample — bumps both.) -/
theorem C5_amended_counter_deltas (cfg : Config) (w : World) (url s : String) :
    (shorten_url cfg w url s).dTotal = 1 ∧
    (shorten_url cfg w url s).dSucc ≤ 1 ∧
    (shorten_url cfg w url s).dFail ≤ 1 ∧
    1 ≤ (shorten_url cfg w url s).dSucc + (shorten_url cfg w url s).dFail ∧
    ∀ st : Counters,
      st.total ≤ (applyCall st (shorten_url cfg w url s)).total ∧
      st.successful ≤ (applyCall st (shorten_url cfg w url s)).successful ∧
      st.failed ≤ (applyCall st (shorten_url cfg w url s)).failed := by
  obtain ⟨d1, d2, d3⟩ := shortenBranch_ok cfg w url s
  exact ⟨rfl, d1, d2, d3,
    fun st => ⟨Nat.le_add_right _ _, Nat.le_add_right _ _, Nat.le_add_right _ _⟩⟩

/-! ### C6: health probes and the stored status record -/

/-- C6 counterexample: with no bitly token configured, a probe of bitly at
time 99 returns an error and leaves the previously stored record (written at
time 0) untouched — the probe does not overwrite the `ProviderHealth`
record. -/
theorem C6_counterexample :
    (check_api_health ⟨"", "", ""⟩ world500 mapBefore 99 7 "bitly").2 = mapBefore ∧
    (check_api_health ⟨"", "", ""⟩ world500 mapBefore 99 7 "bitly").2.lookup "bitly" =
      some ⟨"connected", 0, some 5⟩ ∧
    (check_api_health ⟨"", "", ""⟩ world500 mapBefore 99 7 "bitly").1 = ⟨"error", none⟩ :=
  ⟨rfl, rfl, rfl⟩

/-- C6 amended: a probe of a configured service (or of tinyurl, which needs
no key) always overwrites that service's stored record with one stamped at
the probe time — including timeout and error outcomes — but a probe finding
its required credential missing returns an error *without* touching the
stored map. -/
theorem C6_amended_probe_overwrites (cfg : Config) (w : World) (m : StatusMap)
    (now elapsed : Nat) :
    (cfg.bitlyToken = "" → check_api_health cfg w m now elapsed "bitly" = (⟨"error", none⟩, m)) ∧
    (cfg.cuttlyApi = "" → check_api_health cfg w m now elapsed "cuttly" = (⟨"error", none⟩, m)) ∧
    (cfg.gplinksApi = "" → check_api_health cfg w m now elapsed "gplinks" = (⟨"error", none⟩, m)) ∧
    (cfg.bitlyToken ≠ "" → ∃ rec : HealthRecord,
      (check_api_health cfg w m now elapsed "bitly").2 = setKey m "bitly" rec ∧
      rec.lastChecked = now) ∧
    (∃ rec : HealthRecord,
      (check_api_health cfg w m now elapsed "tinyurl").2 = setKey m "tinyurl" rec ∧
      rec.lastChecked = now) ∧
    (cfg.cuttlyApi ≠ "" → ∃ rec : HealthRecord,
      (check_api_health cfg w m now elapsed "cuttly").2 = setKey m "cuttly" rec ∧
      rec.lastChecked = now) ∧
    (cfg.gplinksApi ≠ "" → ∃ rec : HealthRecord,
      (check_api_health cfg w m now elapsed "gplinks").2 = setKey m "gplinks" rec ∧
      rec.lastChecked = now) := by
  have hstep : ∀ (service : String) (req : Req), ∃ rec : HealthRecord,
      (healthProbeStep w m service now elapsed req).2 = setKey m service rec ∧
      rec.lastChecked = now := by
    intro service req
    unfold healthProbeStep
    cases w req with
    | timeout => exact ⟨⟨"timeout", now, none⟩, rfl, rfl⟩
    | connError => exact ⟨⟨"error", now, none⟩, rfl, rfl⟩
    | ok st t j => exact ⟨⟨if st = 200 then "connected" else "error", now, some elapsed⟩, rfl, rfl⟩
  refine ⟨?_, ?_, ?_, ?_, ?_, ?_, ?_⟩
  · intro h; simp [check_api_health, h]
  · intro h; simp [check_api_health, h]
  · intro h; simp [check_api_health, h]
  · intro h; simpa [check_api_health, h] using hstep "bitly" bitlyHealthReq
  · simpa [check_api_health] using hstep "tinyurl" tinyurlHealthReq
  · intro h; simpa [check_api_health, h] using hstep "cuttly" cuttlyHealthReq
  · intro h; simpa [check_api_health, h] using hstep "gplinks" gplinksHealthReq

theorem C6_witness :
    cfgAllKeys.bitlyToken ≠ "" ∧
    (∃ rec : HealthRecord,
      (check_api_health cfgAllKeys world500 mapBefore 99 7 "bitly").2 =
        setKey mapBefore "bitly" rec ∧ rec.lastChecked = 99) :=
  ⟨by decide,
   (C6_amended_probe_overwrites cfgAllKeys world500 mapBefore 99 7).2.2.2.1 (by decide)⟩

/-! ### C9: the gplinks GET-then-POST retry -/

/-- C9 counterexample: a gplinks GET answering HTTP 200 with the JSON object
having status `success` but no short-URL field makes the call return `None`
(after counting a success) with only the GET issued — the POST retry the
claim promises never happens, even though here the POST would have returned
a URL. -/
theorem C9_counterexample :
    (shorten_url cfgAllKeys worldGpSuccessNoField urlEx "gplinks").result = none ∧
    (shorten_url cfgAllKeys worldGpSuccessNoField urlEx "gplinks").reqs = [gpGetReq urlEx] ∧
    worldGpSuccessNoField (gpPostReq urlEx) = .ok 200 "https://gplinks.in/abc123" none :=
  ⟨rfl, rfl, rfl⟩

/-- C9 amended: with the key configured and a valid URL, the gplinks adapter
retries as a POST exactly when the GET hands its 200-block no early exit: a
non-200 status, a 200 JSON object carrying neither a success status nor a
`shortenedUrl` key, or a 200 unparsable body without a regex-recoverable URL.
A usable GET result (URL-shaped body, success-status object, `shortenedUrl`
key, or regex-recovered URL) is returned without issuing the POST.  Three
further GET outcomes also skip the POST, against the original claim: a
timeout or transport error (the exception aborts the call), a 200 JSON object
with status `success` but no short-URL field (returns `None` directly), and a
200 JSON body that is not an object (the attribute error aborts the call). -/
theorem C9_amended_get_post_retry (cfg : Config) (w : World) (url : String)
    (hk : cfg.gplinksApi ≠ "") (hv : is_valid_url url = true) :
    ((w (gpGetReq url) = .timeout ∨ w (gpGetReq url) = .connError) →
      (shorten_url cfg w url "gplinks").reqs = [gpGetReq url] ∧
      (shorten_url cfg w url "gplinks").result = none) ∧
    (∀ st t j, w (gpGetReq url) = .ok st t j → st ≠ 200 →
      (shorten_url cfg w url "gplinks").reqs = [gpGetReq url, gpPostReq url]) ∧
    (∀ t j, w (gpGetReq url) = .ok 200 t j → startsWithHttp (pyStrip t) = true →
      (shorten_url cfg w url "gplinks").result = some (.str (pyStrip t)) ∧
      (shorten_url cfg w url "gplinks").reqs = [gpGetReq url]) ∧
    (∀ t kvs, w (gpGetReq url) = .ok 200 t (some (.obj kvs)) →
      startsWithHttp (pyStrip t) = false → isSuccessVal (kvs.lookup "status") = true →
      (shorten_url cfg w url "gplinks").result =
        pyOr (kvs.lookup "shortenedUrl") (kvs.lookup "shorturl") ∧
      (shorten_url cfg w url "gplinks").reqs = [gpGetReq url]) ∧
    (∀ t kvs v, w (gpGetReq url) = .ok 200 t (some (.obj kvs)) →
      startsWithHttp (pyStrip t) = false → isSuccessVal (kvs.lookup "status") = false →
      kvs.lookup "shortenedUrl" = some v →
      (shorten_url cfg w url "gplinks").result = some v ∧
      (shorten_url cfg w url "gplinks").reqs = [gpGetReq url]) ∧
    (∀ t kvs, w (gpGetReq url) = .ok 200 t (some (.obj kvs)) →
      startsWithHttp (pyStrip t) = false → isSuccessVal (kvs.lookup "status") = false →
      kvs.lookup "shortenedUrl" = none →
      (shorten_url cfg w url "gplinks").reqs = [gpGetReq url, gpPostReq url]) ∧
    (∀ t s, w (gpGetReq url) = .ok 200 t (some (.str s)) →
      startsWithHttp (pyStrip t) = false →
      (shorten_url cfg w url "gplinks").result = none ∧
      (shorten_url cfg w url "gplinks").reqs = [gpGetReq url] ∧
      (shorten_url cfg w url "gplinks").dFail = 1) ∧
    (∀ t n, w (gpGetReq url) = .ok 200 t (some (.num n)) →
      startsWithHttp (pyStrip t) = false →
      (shorten_url cfg w url "gplinks").result = none ∧
      (shorten_url cfg w url "gplinks").reqs = [gpGetReq url] ∧
      (shorten_url cfg w url "gplinks").dFail = 1) ∧
    (∀ t u us, w (gpGetReq url) = .ok 200 t none → startsWithHttp (pyStrip t) = false →
      containsHttp (pyStrip t) = true → findUrls (pyStrip t) = u :: us →
      (shorten_url cfg w url "gplinks").result = some (.str u) ∧
      (shorten_url cfg w url "gplinks").reqs = [gpGetReq url]) ∧
    (∀ t, w (gpGetReq url) = .ok 200 t none → startsWithHttp (pyStrip t) = false →
      (containsHttp (pyStrip t) = false ∨ findUrls (pyStrip t) = []) →
      (shorten_url cfg w url "gplinks").reqs = [gpGetReq url, gpPostReq url]) := by
  have postReqs : ∀ st t j, w (gpGetReq url) = .ok st t j →
      gplinksParse true st t j = .fallthrough →
      (shorten_url cfg w url "gplinks").reqs = [gpGetReq url, gpPostReq url] := by
    intro st t j hget hfall
    cases hp : w (gpPostReq url) with
    | timeout => simp [shorten_url, shortenBranch, hv, gplinksShorten, hk, hget, hfall, hp]
    | connError => simp [shorten_url, shortenBranch, hv, gplinksShorten, hk, hget, hfall, hp]
    | ok st2 t2 j2 =>
        cases hq : gplinksParse false st2 t2 j2 <;>
          simp [shorten_url, shortenBranch, hv, gplinksShorten, hk, hget, hfall, hp, hq]
  refine ⟨?_, ?_, ?_, ?_, ?_, ?_, ?_, ?_, ?_, ?_⟩
  · rintro (hget | hget) <;>
      simp [shorten_url, shortenBranch, hv, gplinksShorten, hk, hget]
  · intro st t j hget hst
    exact postReqs st t j hget (by simp [gplinksParse, hst])
  · intro t j hget hstart
    constructor <;>
      simp [shorten_url, shortenBranch, hv, gplinksShorten, hk, hget, gplinksParse, hstart]
  · intro t kvs hget hstart hsucc
    constructor <;>
      simp [shorten_url, shortenBranch, hv, gplinksShorten, hk, hget, gplinksParse, hstart, hsucc]
  · intro t kvs v hget hstart hsucc hlook
    constructor <;>
      simp [shorten_url, shortenBranch, hv, gplinksShorten, hk, hget, gplinksParse, hstart,
        hsucc, hlook]
  · intro t kvs hget hstart hsucc hlook
    exact postReqs 200 t _ hget (by simp [gplinksParse, hstart, hsucc, hlook])
  · intro t s hget hstart
    refine ⟨?_, ?_, ?_⟩ <;>
      simp [shorten_url, shortenBranch, hv, gplinksShorten, hk, hget, gplinksParse, hstart]
  · intro t n hget hstart
    refine ⟨?_, ?_, ?_⟩ <;>
      simp [shorten_url, shortenBranch, hv, gplinksShorten, hk, hget, gplinksParse, hstart]
  · intro t u us hget hstart hcont hfind
    constructor <;>
      simp [shorten_url, shortenBranch, hv, gplinksShorten, hk, hget, gplinksParse, hstart,
        hcont, hfind]
  · intro t hget hstart hcase
    cases hcb : containsHttp (pyStrip t) with
    | false => exact postReqs 200 t none hget (by simp [gplinksParse, hstart, hcb])
    | true =>
        rcases hcase with hc | hc
        · rw [hcb] at hc; cases hc
        · exact postReqs 200 t none hget (by simp [gplinksParse, hstart, hcb, hc])

/-! ### C1: the all-providers dispatch -/

theorem bitlyShorten_congr (cfg : Config) (w w' : World) (url : String)
    (h : w (bitlyReq url) = w' (bitlyReq url)) :
    bitlyShorten cfg w url = bitlyShorten cfg w' url := by
  unfold bitlyShorten; rw [h]

theorem tinyurlShorten_congr (w w' : World) (url : String)
    (h : w (tinyurlReq url) = w' (tinyurlReq url)) :
    tinyurlShorten w url = tinyurlShorten w' url := by
  unfold tinyurlShorten; rw [h]

theorem cuttlyShorten_congr (cfg : Config) (w w' : World) (url : String)
    (h : w (cuttlyReq url) = w' (cuttlyReq url)) :
    cuttlyShorten cfg w url = cuttlyShorten cfg w' url := by
  unfold cuttlyShorten; rw [h]

theorem gplinksShorten_congr (cfg : Config) (w w' : World) (url : String)
    (h1 : w (gpGetReq url) = w' (gpGetReq url))
    (h2 : w (gpPostReq url) = w' (gpPostReq url)) :
    gplinksShorten cfg w url = gplinksShorten cfg w' url := by
  unfold gplinksShorten; rw [h1, h2]

/-- `shorten_url` consults the HTTP world only at requests aimed at the
selected service's own endpoint. -/
theorem shorten_url_api_local (cfg : Config) (w w' : World) (url s : String)
    (h : ∀ r : Req, r.api = serviceApi s → w r = w' r) :
    shorten_url cfg w url s = shorten_url cfg w' url s := by
  have hbranch : shortenBranch cfg w url s = shortenBranch cfg w' url s := by
    unfold shortenBranch
    by_cases hv : is_valid_url url
    · simp only [hv, Bool.not_true, Bool.false_eq_true, if_false]
      by_cases h1 : s = "bitly"
      · subst h1
        rw [if_pos rfl]
        exact bitlyShorten_congr cfg w w' url (h _ rfl)
      · rw [if_neg h1]
        by_cases h2 : s = "tinyurl"
        · subst h2
          rw [if_pos rfl]
          exact tinyurlShorten_congr w w' url (h _ rfl)
        · rw [if_neg h2]
          by_cases h3 : s = "cuttly"
          · subst h3
            rw [if_pos rfl]
            exact cuttlyShorten_congr cfg w w' url (h _ rfl)
          · rw [if_neg h3]
            by_cases h4 : s = "gplinks"
            · subst h4
              rw [if_pos rfl]
              exact gplinksShorten_congr cfg w w' url (h _ rfl) (h _ rfl)
            · rw [if_neg h4, if_neg h1, if_neg h2, if_neg h3, if_neg h4]
    · simp only [Bool.not_eq_true] at hv
      simp only [hv, Bool.not_false, if_true]
  show (⟨(shortenBranch cfg w url s).result, 1, (shortenBranch cfg w url s).dSucc,
      (shortenBranch cfg w url s).dFail, (shortenBranch cfg w url s).reqs⟩ : CallResult) = _
  rw [hbranch]
  rfl

/-- C1: dispatching to all providers returns exactly one outcome per
configured provider, in the fixed declaration order of `SUPPORTED_SERVICES`;
each collected outcome is exactly that provider's own `shorten_url` call; and
a provider's outcome is unaffected by arbitrary changes (failures included)
to any other provider's backend — no provider's failure can prevent the rest
from being attempted or their outcomes from being collected. -/
theorem C1_dispatch_all_providers (cfg : Config) (w : World) (url : String) :
    (send_all_shortened_urls cfg w url).map Prod.fst =
      ["bitly", "tinyurl", "cuttly", "gplinks"] ∧
    (∀ p ∈ send_all_shortened_urls cfg w url, p.2 = shorten_url cfg w url p.1) ∧
    (∀ (w' : World) (s t : String), s ∈ serviceKeys → t ∈ serviceKeys → t ≠ s →
      (∀ r : Req, r.api ≠ serviceApi s → w r = w' r) →
      shorten_url cfg w' url t = shorten_url cfg w url t) := by
  refine ⟨rfl, ?_, ?_⟩
  · intro p hp
    simp only [send_all_shortened_urls, SUPPORTED_SERVICES, List.map_cons, List.map_nil,
      List.mem_cons, List.not_mem_nil, or_false] at hp
    rcases hp with h1 | h1 | h1 | h1 <;> (subst h1; rfl)
  · intro w' s t hs ht hne hagree
    have key : serviceApi t ≠ serviceApi s := by
      simp only [serviceKeys, SUPPORTED_SERVICES, List.map_cons, List.map_nil,
        List.mem_cons, List.not_mem_nil, or_false] at hs ht
      rcases hs with rfl | rfl | rfl | rfl <;> rcases ht with rfl | rfl | rfl | rfl <;>
        first
          | exact absurd rfl hne
          | decide
    exact shorten_url_api_local cfg w' w url t
      (fun r hr => (hagree r (by rw [hr]; exact key)).symm)

theorem C1_witness :
    ("gplinks" ∈ serviceKeys) ∧ ("tinyurl" ∈ serviceKeys) ∧ "tinyurl" ≠ "gplinks" ∧
    shorten_url cfgAllKeys worldGpDown urlEx "tinyurl" =
      shorten_url cfgAllKeys world500 urlEx "tinyurl" :=
  ⟨by decide, by decide, by decide,
   (C1_dispatch_all_providers cfgAllKeys world500 urlEx).2.2 worldGpDown "gplinks" "tinyurl"
     (by decide) (by decide) (by decide)
     (by
       intro r hr
       have hne : r.api ≠ "https://gplinks.in/api" :=
         fun hEq => hr (hEq.trans (by decide))
       simp [worldGpDown, world500, hne])⟩


/-! ### C7: the URL validator -/

theorem isAlnumCI_not_special {c : Char} (h : isAlnumCI c = true) :
    c ≠ '.' ∧ c ≠ '/' ∧ c ≠ '?' ∧ c ≠ ':' := by
  refine ⟨?_, ?_, ?_, ?_⟩ <;> (rintro rfl; exact absurd h (by decide))

theorem isDigitChar_alnum {c : Char} (h : isDigitChar c = true) : isAlnumCI c = true := by
  simp [isAlnumCI, h]

theorem isAlphaCI_alnum {c : Char} (h : isAlphaCI c = true) : isAlnumCI c = true := by
  simp [isAlnumCI, h]

theorem labelRest_mem : ∀ (l : List Char), labelRest l = true →
    ∀ c ∈ l, isAlnumCI c = true ∨ c = '-' := by
  intro l
  induction l with
  | nil => intro _ c hc; cases hc
  | cons a rest ih =>
      intro h c hc
      cases rest with
      | nil =>
          rcases List.mem_cons.mp hc with rfl | hc2
          · left; simpa [labelRest] using h
          · cases hc2
      | cons b rest2 =>
          unfold labelRest at h
          rw [Bool.and_eq_true] at h
          rcases List.mem_cons.mp hc with rfl | hc2
          · have h1 := h.1
            rw [Bool.or_eq_true] at h1
            rcases h1 with ha | ha
            · exact Or.inl ha
            · right; simpa using ha
          · exact ih h.2 c hc2

theorem labelOk_mem {l : List Char} (h : labelOk l = true) :
    ∀ c ∈ l, isAlnumCI c = true ∨ c = '-' := by
  cases l with
  | nil => exact absurd h (by decide)
  | cons a rest =>
      unfold labelOk at h
      rw [Bool.and_eq_true, Bool.and_eq_true] at h
      intro c hc
      rcases List.mem_cons.mp hc with rfl | hc2
      · exact Or.inl h.1.1
      · exact labelRest_mem rest h.2 c hc2

theorem labelOk_no_special {l : List Char} (h : labelOk l = true) :
    ∀ c ∈ l, c ≠ '.' ∧ c ≠ '/' ∧ c ≠ '?' ∧ c ≠ ':' := by
  intro c hc
  rcases labelOk_mem h c hc with ha | rfl
  · exact isAlnumCI_not_special ha
  · exact ⟨by decide, by decide, by decide, by decide⟩

theorem tldOk_mem {l : List Char} (h : tldOk l = true) : ∀ c ∈ l, isAlphaCI c = true := by
  unfold tldOk at h
  rw [Bool.and_eq_true] at h
  exact fun c hc => List.all_eq_true.mp h.2 c hc

theorem tldOk_no_special {l : List Char} (h : tldOk l = true) :
    ∀ c ∈ l, c ≠ '.' ∧ c ≠ '/' ∧ c ≠ '?' ∧ c ≠ ':' :=
  fun c hc => isAlnumCI_not_special (isAlphaCI_alnum (tldOk_mem h c hc))

theorem tldOk_ne_nil {l : List Char} (h : tldOk l = true) : l.isEmpty = false := by
  cases l with
  | nil => exact absurd h (by decide)
  | cons a rest => rfl

theorem specOctetOk_parts {g : List Char} (h : specOctetOk g = true) :
    1 ≤ g.length ∧ g.length ≤ 3 ∧ g.all isDigitChar = true := by
  unfold specOctetOk at h
  rw [Bool.and_eq_true, Bool.and_eq_true, Bool.and_eq_true] at h
  exact ⟨of_decide_eq_true h.1.1.1, of_decide_eq_true h.1.1.2, h.1.2⟩

theorem specOctetOk_no_special {g : List Char} (h : specOctetOk g = true) :
    ∀ c ∈ g, c ≠ '.' ∧ c ≠ '/' ∧ c ≠ '?' ∧ c ≠ ':' := by
  intro c hc
  exact isAlnumCI_not_special (isDigitChar_alnum
    (List.all_eq_true.mp (specOctetOk_parts h).2.2 c hc))

theorem splitWhile_append (p : Char → Bool) : ∀ (xs ys : List Char),
    (∀ c ∈ xs, p c = true) → (∀ c cs, ys = c :: cs → p c = false) →
    splitWhile p (xs ++ ys) = (xs, ys) := by
  intro xs
  induction xs with
  | nil =>
      intro ys _ hy
      cases ys with
      | nil => rfl
      | cons c cs => simp [splitWhile, hy c cs rfl]
  | cons x xs ih =>
      intro ys hx hy
      have hpx : p x = true := hx x (List.mem_cons_self x xs)
      simp [splitWhile, hpx,
        ih ys (fun c hc => hx c (List.mem_cons_of_mem _ hc)) hy]

theorem splitDots_append_dot : ∀ (l rest : List Char), (∀ c ∈ l, c ≠ '.') →
    splitDots (l ++ '.' :: rest) = l :: splitDots rest := by
  intro l
  induction l with
  | nil => intro rest _; simp [splitDots]
  | cons c cs ih =>
      intro rest hl
      have hc : c ≠ '.' := hl c (List.mem_cons_self _ _)
      have ih' := ih rest (fun d hd => hl d (List.mem_cons_of_mem _ hd))
      simp only [List.cons_append]
      rw [splitDots, ih']
      exact hc

theorem splitDots_no_dot : ∀ (l : List Char), (∀ c ∈ l, c ≠ '.') →
    splitDots l = [l] := by
  intro l
  induction l with
  | nil => intro _; rfl
  | cons c cs ih =>
      intro hl
      have hc : c ≠ '.' := hl c (List.mem_cons_self _ _)
      have ih' := ih (fun d hd => hl d (List.mem_cons_of_mem _ hd))
      rw [splitDots, ih']
      exact hc


theorem domainGroupsOk_labels_tld (labels : List (List Char)) (tld : List Char)
    (hne : labels ≠ []) (hlab : ∀ l ∈ labels, labelOk l = true)
    (htld : tldOk tld = true) :
    domainGroupsOk (labels ++ [tld]) = true := by
  have hrev : labels.reverse.isEmpty = false := by
    cases hr : labels.reverse with
    | nil => exact absurd (List.reverse_eq_nil_iff.mp hr) hne
    | cons a t => rfl
  have hall : labels.reverse.all labelOk = true :=
    List.all_eq_true.mpr fun x hx => hlab x (List.mem_reverse.mp hx)
  unfold domainGroupsOk
  rw [List.reverse_append]
  simp [tldOk_ne_nil htld, htld, hrev, hall]

theorem domainGroupsOk_labels_tld_dot (labels : List (List Char)) (tld : List Char)
    (hne : labels ≠ []) (hlab : ∀ l ∈ labels, labelOk l = true)
    (htld : tldOk tld = true) :
    domainGroupsOk (labels ++ [tld, []]) = true := by
  have hrev : labels.reverse.isEmpty = false := by
    cases hr : labels.reverse with
    | nil => exact absurd (List.reverse_eq_nil_iff.mp hr) hne
    | cons a t => rfl
  have hall : labels.reverse.all labelOk = true :=
    List.all_eq_true.mpr fun x hx => hlab x (List.mem_reverse.mp hx)
  unfold domainGroupsOk
  rw [List.reverse_append]
  simp [tldOk_ne_nil htld, htld, hrev, hall]

theorem splitDots_foldr (labels : List (List Char)) (base : List Char)
    (hlab : ∀ l ∈ labels, ∀ c ∈ l, c ≠ '.') :
    splitDots (labels.foldr (fun l acc => l ++ '.' :: acc) base) =
      labels ++ splitDots base := by
  induction labels with
  | nil => rfl
  | cons l ls ih =>
      simp only [List.foldr_cons]
      rw [splitDots_append_dot _ _ (hlab l (List.mem_cons_self _ _)),
        ih (fun x hx => hlab x (List.mem_cons_of_mem _ hx))]
      rfl

theorem hostOk_domain (labels : List (List Char)) (tld : List Char) (trailing : Bool)
    (hne : labels ≠ []) (hlab : ∀ l ∈ labels, labelOk l = true)
    (htld : tldOk tld = true) :
    hostOk (SpecHost.render (.domain labels tld trailing)) = true := by
  have hlabdot : ∀ l ∈ labels, ∀ c ∈ l, c ≠ '.' :=
    fun l hl c hc => (labelOk_no_special (hlab l hl) c hc).1
  have htlddot : ∀ c ∈ tld, c ≠ '.' := fun c hc => (tldOk_no_special htld c hc).1
  unfold hostOk SpecHost.render
  cases trailing with
  | false =>
      have hbase : splitDots (tld ++ (if false then ['.'] else [])) = [tld] := by
        simpa using splitDots_no_dot tld htlddot
      rw [splitDots_foldr labels _ hlabdot, hbase,
        domainGroupsOk_labels_tld labels tld hne hlab htld]
      rfl
  | true =>
      have hbase : splitDots (tld ++ (if true then ['.'] else [])) = [tld, []] := by
        simpa using splitDots_append_dot tld [] htlddot
      rw [splitDots_foldr labels _ hlabdot, hbase,
        domainGroupsOk_labels_tld_dot labels tld hne hlab htld]
      rfl

theorem hostOk_localhost : hostOk (SpecHost.render .localhost) = true := by decide

theorem hostOk_ipv4 (o1 o2 o3 o4 : List Char)
    (h1 : specOctetOk o1 = true) (h2 : specOctetOk o2 = true)
    (h3 : specOctetOk o3 = true) (h4 : specOctetOk o4 = true) :
    hostOk (SpecHost.render (.ipv4 o1 o2 o3 o4)) = true := by
  have nodot : ∀ g, specOctetOk g = true → ∀ c ∈ g, c ≠ '.' :=
    fun g hg c hc => (specOctetOk_no_special hg c hc).1
  have hrender : SpecHost.render (.ipv4 o1 o2 o3 o4) =
      o1 ++ '.' :: (o2 ++ '.' :: (o3 ++ '.' :: o4)) := by
    simp [SpecHost.render, List.append_assoc]
  have hsplit : splitDots (SpecHost.render (.ipv4 o1 o2 o3 o4)) = [o1, o2, o3, o4] := by
    rw [hrender, splitDots_append_dot _ _ (nodot o1 h1),
      splitDots_append_dot _ _ (nodot o2 h2), splitDots_append_dot _ _ (nodot o3 h3),
      splitDots_no_dot _ (nodot o4 h4)]
  have hip : ipGroupsOk [o1, o2, o3, o4] = true := by
    have p1 := specOctetOk_parts h1
    have p2 := specOctetOk_parts h2
    have p3 := specOctetOk_parts h3
    have p4 := specOctetOk_parts h4
    simp [ipGroupsOk, p1.1, p1.2.1, p1.2.2, p2.1, p2.2.1, p2.2.2,
      p3.1, p3.2.1, p3.2.2, p4.1, p4.2.1, p4.2.2]
  unfold hostOk
  rw [hsplit, hip]
  simp

theorem foldr_mem_special (base : List Char)
    (hbase : ∀ c ∈ base, c ≠ '/' ∧ c ≠ '?' ∧ c ≠ ':') :
    ∀ labels : List (List Char), (∀ l ∈ labels, labelOk l = true) →
      ∀ c ∈ labels.foldr (fun l acc => l ++ '.' :: acc) base,
        c ≠ '/' ∧ c ≠ '?' ∧ c ≠ ':' := by
  intro labels
  induction labels with
  | nil => intro _ c hc; exact hbase c hc
  | cons l ls ih =>
      intro hlab c hc
      simp only [List.foldr_cons] at hc
      rcases List.mem_append.mp hc with hc1 | hc1
      · have h4 := labelOk_no_special (hlab l (List.mem_cons_self _ _)) c hc1
        exact ⟨h4.2.1, h4.2.2.1, h4.2.2.2⟩
      · rcases List.mem_cons.mp hc1 with rfl | hc2
        · exact ⟨by decide, by decide, by decide⟩
        · exact ih (fun x hx => hlab x (List.mem_cons_of_mem _ hx)) c hc2

theorem hostRender_no_special {h : SpecHost} (hok : h.ok = true) :
    ∀ c ∈ h.render, c ≠ '/' ∧ c ≠ '?' ∧ c ≠ ':' := by
  cases h with
  | domain labels tld trailing =>
      unfold SpecHost.ok at hok
      rw [Bool.and_eq_true, Bool.and_eq_true] at hok
      have hlab : ∀ l ∈ labels, labelOk l = true :=
        fun l hl => List.all_eq_true.mp hok.1.2 l hl
      have htld := hok.2
      intro c hc
      unfold SpecHost.render at hc
      refine foldr_mem_special _ ?_ labels hlab c hc
      intro d hd
      rcases List.mem_append.mp hd with hd1 | hd1
      · have h4 := tldOk_no_special htld d hd1
        exact ⟨h4.2.1, h4.2.2.1, h4.2.2.2⟩
      · cases trailing with
        | false => cases hd1
        | true =>
            simp only [if_true, List.mem_singleton] at hd1
            subst hd1
            exact ⟨by decide, by decide, by decide⟩
  | localhost =>
      intro c hc
      fin_cases hc <;> exact ⟨by decide, by decide, by decide⟩
  | ipv4 o1 o2 o3 o4 =>
      unfold SpecHost.ok at hok
      rw [Bool.and_eq_true, Bool.and_eq_true, Bool.and_eq_true] at hok
      intro c hc
      unfold SpecHost.render at hc
      have spec : ∀ g, specOctetOk g = true → c ∈ g → c ≠ '/' ∧ c ≠ '?' ∧ c ≠ ':' :=
        fun g hg hcg =>
          ⟨(specOctetOk_no_special hg c hcg).2.1, (specOctetOk_no_special hg c hcg).2.2.1,
            (specOctetOk_no_special hg c hcg).2.2.2⟩
      have hmem : c = '.' ∨ c ∈ o1 ∨ c ∈ o2 ∨ c ∈ o3 ∨ c ∈ o4 := by
        simp only [List.mem_append, List.mem_cons] at hc
        tauto
      rcases hmem with rfl | hm | hm | hm | hm
      · exact ⟨by decide, by decide, by decide⟩
      · exact spec o1 hok.1.1.1 hm
      · exact spec o2 hok.1.1.2 hm
      · exact spec o3 hok.1.2 hm
      · exact spec o4 hok.2 hm


theorem stripScheme_http (r : List Char) : stripScheme (schemeHttp ++ r) = some r := rfl

theorem stripScheme_https (r : List Char) : stripScheme (schemeHttps ++ r) = some r := rfl

theorem portOk_render (port : Option (List Char))
    (hport : ∀ ds, port = some ds → (!ds.isEmpty && ds.all isDigitChar) = true) :
    portOk (portRender port) = true := by
  cases port with
  | none => rfl
  | some ds => exact hport ds rfl

theorem tailOk_cons_cons (c d : Char) (rest : List Char)
    (hc : c = '/' ∨ c = '?')
    (hall : ((d :: rest).all fun x => !pyIsSpace x) = true) :
    tailOk (c :: d :: rest) = true := by
  unfold tailOk
  rcases hc with rfl | rfl <;> simp [hall]

theorem tailOk_render (path query : Option (List Char))
    (hpath : ∀ p, path = some p → p.all (fun c => !pyIsSpace c) = true)
    (hquery : ∀ q, query = some q → q.all (fun c => !pyIsSpace c) = true)
    (hpq : path = none → ∀ q, query = some q → q.isEmpty = false) :
    tailOk (pathRender path ++ queryRender query) = true := by
  cases path with
  | none =>
      cases query with
      | none => rfl
      | some q =>
          cases q with
          | nil => exact absurd (hpq rfl [] rfl) (by decide)
          | cons a q2 =>
              exact tailOk_cons_cons '?' a q2 (Or.inr rfl) (hquery (a :: q2) rfl)
  | some p =>
      have hp := hpath p rfl
      cases query with
      | none =>
          cases p with
          | nil => rfl
          | cons a p2 =>
              show tailOk ('/' :: a :: (p2 ++ [])) = true
              rw [List.append_nil]
              exact tailOk_cons_cons '/' a p2 (Or.inl rfl) hp
      | some q =>
          have hq := hquery q rfl
          cases p with
          | nil =>
              show tailOk ('/' :: '?' :: q) = true
              refine tailOk_cons_cons '/' '?' q (Or.inl rfl) ?_
              rw [List.all_cons, hq]
              rfl
          | cons a p2 =>
              rw [List.all_cons, Bool.and_eq_true] at hp
              show tailOk ('/' :: a :: (p2 ++ '?' :: q)) = true
              refine tailOk_cons_cons '/' a (p2 ++ '?' :: q) (Or.inl rfl) ?_
              rw [List.all_cons, List.all_append, List.all_cons, hp.1, hp.2, hq]
              rfl

theorem tail_head_not_pass (path query : Option (List Char)) :
    ∀ c cs, pathRender path ++ queryRender query = c :: cs →
      ((fun c => c ≠ '/' && c ≠ '?') c) = false := by
  intro c cs h
  cases path with
  | some p =>
      simp only [pathRender, List.cons_append] at h
      injection h with h1 _
      rw [← h1]; decide
  | none =>
      cases query with
      | none => cases h
      | some q =>
          simp only [pathRender, queryRender, List.nil_append] at h
          injection h with h1 _
          rw [← h1]; decide

theorem stripScheme_some_shape : ∀ (cs r : List Char), stripScheme cs = some r →
    specHasSchemeL cs = true := by
  intro cs r h
  unfold stripScheme at h
  unfold specHasSchemeL
  split at h
  · rename_i tail heq
    rw [heq]
    rfl
  · rename_i tail heq
    rw [heq]
    rfl
  · exact Option.noConfusion h

theorem specHasSchemeL_append (cs ds : List Char) (h : specHasSchemeL cs = true) :
    specHasSchemeL (cs ++ ds) = true := by
  unfold specHasSchemeL at h ⊢
  split at h
  · rename_i tail heq
    rw [List.map_append, heq]
    simp only [List.cons_append]
  · rename_i tail heq
    rw [List.map_append, heq]
    simp only [List.cons_append]
  · exact Bool.noConfusion h

theorem specHasSchemeL_dropLast (cs : List Char)
    (h : specHasSchemeL cs.dropLast = true) : specHasSchemeL cs = true := by
  by_cases hne : cs = []
  · subst hne; exact h
  · have h2 := specHasSchemeL_append cs.dropLast [cs.getLast hne] h
    rwa [List.dropLast_append_getLast hne] at h2

theorem specHasSchemeL_head_not_h (c : Char) (cs : List Char) (h : charLower c ≠ 'h') :
    specHasSchemeL (c :: cs) = false := by
  unfold specHasSchemeL
  split
  · rename_i tail heq
    rw [List.map_cons] at heq
    injection heq with h1 _
    exact absurd h1 h
  · rename_i tail heq
    rw [List.map_cons] at heq
    injection heq with h1 _
    exact absurd h1 h
  · rfl

theorem coreMatch_scheme {cs : List Char} (h : coreMatch cs = true) :
    specHasSchemeL cs = true := by
  unfold coreMatch at h
  cases hs : stripScheme cs with
  | none => rw [hs] at h; simp at h
  | some r => exact stripScheme_some_shape cs r hs

theorem noScheme_invalid (s : String) (h : specHasScheme s = false) :
    is_valid_url s = false := by
  cases hval : is_valid_url s with
  | false => rfl
  | true =>
      exfalso
      unfold is_valid_url at hval
      rw [Bool.or_eq_true] at hval
      have hL : specHasSchemeL s.data = false := h
      rcases hval with hcm | hrest
      · rw [coreMatch_scheme hcm] at hL
        cases hL
      · cases hlast : s.data.getLast? with
        | none => rw [hlast] at hrest; simp at hrest
        | some c =>
            rw [hlast] at hrest
            have hrest2 : (decide (c = Char.ofNat 10) && coreMatch s.data.dropLast) = true :=
              hrest
            rw [Bool.and_eq_true] at hrest2
            have := specHasSchemeL_dropLast s.data (coreMatch_scheme hrest2.2)
            rw [this] at hL
            cases hL

theorem coreMatch_eval (cs rest : List Char) (h : stripScheme cs = some rest) :
    coreMatch cs =
      (hostOk (splitWhile (fun c => c ≠ ':')
          (splitWhile (fun c => c ≠ '/' && c ≠ '?') rest).1).1 &&
        portOk (splitWhile (fun c => c ≠ ':')
          (splitWhile (fun c => c ≠ '/' && c ≠ '?') rest).1).2 &&
        tailOk (splitWhile (fun c => c ≠ '/' && c ≠ '?') rest).2) := by
  unfold coreMatch
  rw [h]

theorem spec_render_valid : ∀ u : SpecUrl, specWf u = true → is_valid_url u.render = true := by
  intro u hwf
  obtain ⟨sec, host, port, path, query⟩ := u
  unfold specWf at hwf
  simp only [Bool.and_eq_true] at hwf
  obtain ⟨⟨⟨⟨hhost, hport0⟩, hpath0⟩, hquery0⟩, hpq0⟩ := hwf
  have hport : ∀ ds, port = some ds → (!ds.isEmpty && ds.all isDigitChar) = true := by
    intro ds hds; rw [hds] at hport0; exact hport0
  have hpath : ∀ p, path = some p → p.all (fun c => !pyIsSpace c) = true := by
    intro p hp; rw [hp] at hpath0; exact hpath0
  have hquery : ∀ q, query = some q → q.all (fun c => !pyIsSpace c) = true := by
    intro q hq; rw [hq] at hquery0; exact hquery0
  have hpq : path = none → ∀ q, query = some q → q.isEmpty = false := by
    intro hp q hq; rw [hp, hq] at hpq0; simpa using hpq0
  have hassoc : SpecUrl.renderChars ⟨sec, host, port, path, query⟩ =
      (if sec then schemeHttps else schemeHttp) ++
        ((SpecHost.render host ++ portRender port) ++
          (pathRender path ++ queryRender query)) := by
    unfold SpecUrl.renderChars
    simp [List.append_assoc]
  have hx1 : ∀ c ∈ SpecHost.render host ++ portRender port,
      ((fun c => c ≠ '/' && c ≠ '?') c) = true := by
    intro c hc
    rcases List.mem_append.mp hc with hc1 | hc1
    · have h3 := hostRender_no_special hhost c hc1
      show (decide (c ≠ '/') && decide (c ≠ '?')) = true
      rw [decide_eq_true h3.1, decide_eq_true h3.2.1]
      rfl
    · cases hport1 : port with
      | none => rw [hport1] at hc1; cases hc1
      | some ds =>
          rw [hport1] at hc1
          rcases List.mem_cons.mp hc1 with rfl | hc2
          · decide
          · have hd : isDigitChar c = true := by
              have h5 := hport ds hport1
              rw [Bool.and_eq_true] at h5
              exact List.all_eq_true.mp h5.2 c hc2
            have h3 := isAlnumCI_not_special (isDigitChar_alnum hd)
            show (decide (c ≠ '/') && decide (c ≠ '?')) = true
            rw [decide_eq_true h3.2.1, decide_eq_true h3.2.2.1]
            rfl
  have hy1 := tail_head_not_pass path query
  have hsplit1 := splitWhile_append (fun c => c ≠ '/' && c ≠ '?')
    (SpecHost.render host ++ portRender port) (pathRender path ++ queryRender query)
    hx1 hy1
  have hx2 : ∀ c ∈ SpecHost.render host, decide (c ≠ ':') = true := by
    intro c hc
    have h3 := hostRender_no_special hhost c hc
    rw [decide_eq_true h3.2.2]
  have hy2 : ∀ c cs2, portRender port = c :: cs2 → decide (c ≠ ':') = false := by
    intro c cs2 hpr
    cases hport1 : port with
    | none => rw [hport1] at hpr; cases hpr
    | some ds =>
        rw [hport1] at hpr
        injection hpr with h1 _
        rw [← h1]; decide
  have hsplit2 := splitWhile_append (fun c => c ≠ ':')
    (SpecHost.render host) (portRender port) hx2 hy2
  have hH : hostOk (SpecHost.render host) = true := by
    cases host with
    | domain labels tld trailing =>
        unfold SpecHost.ok at hhost
        rw [Bool.and_eq_true, Bool.and_eq_true] at hhost
        have hne : labels ≠ [] := by
          cases labels with
          | nil => exact absurd hhost.1.1 (by decide)
          | cons a t => simp
        exact hostOk_domain labels tld trailing hne
          (fun l hl => List.all_eq_true.mp hhost.1.2 l hl) hhost.2
    | localhost => exact hostOk_localhost
    | ipv4 o1 o2 o3 o4 =>
        unfold SpecHost.ok at hhost
        rw [Bool.and_eq_true, Bool.and_eq_true, Bool.and_eq_true] at hhost
        exact hostOk_ipv4 o1 o2 o3 o4 hhost.1.1.1 hhost.1.1.2 hhost.1.2 hhost.2
  have hP : portOk (portRender port) = true := portOk_render port hport
  have hT : tailOk (pathRender path ++ queryRender query) = true :=
    tailOk_render path query hpath hquery hpq
  have hfinal : ∀ sch : List Char,
      stripScheme (sch ++ ((SpecHost.render host ++ portRender port) ++
        (pathRender path ++ queryRender query))) =
        some ((SpecHost.render host ++ portRender port) ++
          (pathRender path ++ queryRender query)) →
      coreMatch (sch ++ ((SpecHost.render host ++ portRender port) ++
        (pathRender path ++ queryRender query))) = true := by
    intro sch hstrip
    rw [coreMatch_eval _ _ hstrip, hsplit1]
    simp only [hsplit2, hH, hP, hT]
    rfl
  unfold SpecUrl.render is_valid_url
  rw [Bool.or_eq_true]
  left
  show coreMatch (SpecUrl.renderChars ⟨sec, host, port, path, query⟩) = true
  rw [hassoc]
  cases sec with
  | true => exact hfinal schemeHttps (stripScheme_https _)
  | false => exact hfinal schemeHttp (stripScheme_http _)

/-- C7: the URL validator is a pure recogniser of the source's regex:
every well-formed absolute http/https URL in the spec's grammar
(`host[:port][/path][?query]`, host a dotted hostname with a 2-6 letter
top-level label, `localhost`, or a dotted-quad IPv4 address) validates, and
every string lacking an http(s) scheme — empty strings, strings with
whitespace before the scheme, and other schemes such as `ftp://` — is
rejected. -/
theorem C7_validator :
    (∀ u : SpecUrl, specWf u = true → is_valid_url u.render = true) ∧
    (∀ s : String, specHasScheme s = false → is_valid_url s = false) ∧
    (∀ (s : String) (c : Char) (cs : List Char),
      s.data = c :: cs → pyIsSpace c = true → is_valid_url s = false) ∧
    is_valid_url "" = false ∧
    is_valid_url "ftp://x" = false := by
  refine ⟨spec_render_valid, noScheme_invalid, ?_, by decide, by decide⟩
  intro s c cs hdata hsp
  apply noScheme_invalid
  show specHasSchemeL s.data = false
  rw [hdata]
  apply specHasSchemeL_head_not_h
  simp [pyIsSpace] at hsp
  rcases hsp with ((((((((rfl | rfl) | rfl) | rfl) | rfl) | rfl) | rfl) | rfl) | rfl) | rfl <;>
    decide

theorem C7_witness :
    specWf specUrlEx = true ∧
    specUrlEx.render = "https://example.com/a?b=1" ∧
    is_valid_url specUrlEx.render = true ∧
    specHasScheme "no scheme here" = false ∧
    is_valid_url "no scheme here" = false :=
  ⟨by decide, by decide, C7_validator.1 specUrlEx (by decide), by decide,
   C7_validator.2.1 "no scheme here" (by decide)⟩

theorem C9_witness :
    cfgAllKeys.gplinksApi ≠ "" ∧
    is_valid_url urlEx = true ∧
    (shorten_url cfgAllKeys worldGpSuccessNoField urlEx "gplinks").result = none ∧
    (shorten_url cfgAllKeys worldGpSuccessNoField urlEx "gplinks").reqs = [gpGetReq urlEx] :=
  ⟨by decide, by decide,
   ((C9_amended_get_post_retry cfgAllKeys worldGpSuccessNoField urlEx (by decide)
       (by decide)).2.2.2.1 "\x7b\"status\": \"success\"\x7d"
     [("status", Json.str "success")] rfl (by decide) (by decide)).1,
   ((C9_amended_get_post_retry cfgAllKeys worldGpSuccessNoField urlEx (by decide)
       (by decide)).2.2.2.1 "\x7b\"status\": \"success\"\x7d"
     [("status", Json.str "success")] rfl (by decide) (by decide)).2⟩

end UrlBot

example : UrlBot.md5Hex "abc" = "900150983cd24fb0d6963f7d28e17f72" := by decide
example : UrlBot.md5Hex "" = "d41d8cd98f00b204e9800998ecf8427e" := by decide
example : UrlBot.generate_url_id "https://example.com" = "c984d06a" := by decide

-- validator sanity checks, mirroring Python `re.match` behaviour
example : UrlBot.is_valid_url "https://example.com/a?b=1" = true := by decide
example : UrlBot.is_valid_url "http://localhost:8080/x" = true := by decide
example : UrlBot.is_valid_url "http://1.2.3.4" = true := by decide
example : UrlBot.is_valid_url "http://999.999.999.999" = true := by decide
example : UrlBot.is_valid_url "HTTP://EXAMPLE.COM" = true := by decide
example : UrlBot.is_valid_url "http://my-site.co.uk." = true := by decide
example : UrlBot.is_valid_url "http://example.com\n" = true := by decide
example : UrlBot.is_valid_url "ftp://x" = false := by decide
example : UrlBot.is_valid_url "" = false := by decide
example : UrlBot.is_valid_url " http://example.com" = false := by decide
example : UrlBot.is_valid_url "http://x" = false := by decide
example : UrlBot.is_valid_url "http://example.c" = false := by decide
example : UrlBot.is_valid_url "http://example.museums" = false := by decide
example : UrlBot.is_valid_url "http://example.com:.." = false := by decide
example : UrlBot.is_valid_url "http://example.com/a b" = false := by decide
example : UrlBot.is_valid_url "http://exa_mple.com" = false := by decide
example : UrlBot.is_valid_url "not a url" = false := by decide

